import Mathlib

/-!
Shallow embedding of the KVM guest-memory management core
(virt/kvm/kvm_main.c): memory-slot table and its set-region protocol,
dirty-page tracking, the gfn-to-hva-to-pfn translation pipeline, the
mmu-notifier invalidation sequence/count protocol, and the sorted
I/O-bus dispatcher.  Machine integers are modelled as Nat (with explicit
mod where overflow matters) and Int for error returns; fallible
allocations and architecture hooks are oracle parameters.
-/

namespace KvmCore

/-! ## Constants (page geometry, slot bounds, flag bits, errno values) -/

/-- Page size in bytes (PAGE_SIZE, 4 KiB pages). -/
def PAGE_SIZE : Nat := 4096

/-- Modelled from the spec: number of user-visible memory slots
(KVM_USER_MEM_SLOTS, defined in the architecture headers which are not
part of this tree; the slot id is a small integer, user slots come
first). -/
def KVM_USER_MEM_SLOTS : Nat := 32

/-- Modelled from the spec: total slot count including the private,
non-user slots (KVM_MEM_SLOTS_NUM). -/
def KVM_MEM_SLOTS_NUM : Nat := 36

/-- KVM_MEM_LOG_DIRTY_PAGES flag bit. -/
def KVM_MEM_LOG_DIRTY_PAGES : Nat := 1

/-- KVM_MEM_READONLY flag bit. -/
def KVM_MEM_READONLY : Nat := 2

/-- KVM_MEMSLOT_INVALID internal flag bit (bit 16), marking a slot
excluded from translation while a delete/move is in flight. -/
def KVM_MEMSLOT_INVALID : Nat := 65536

/-- Largest page count accepted for one region (KVM_MEM_MAX_NR_PAGES). -/
def KVM_MEM_MAX_NR_PAGES : Nat := 2 ^ 31 - 1

/-- Mask of all bits of a 32-bit flags word. -/
def U32_MASK : Nat := 2 ^ 32 - 1

def EINVAL : Int := 22
def EEXIST : Int := 17
def ENOMEM : Int := 12
def EFAULT : Int := 14
def ENOENT : Int := 2
def EOPNOTSUPP : Int := 95

/-! ## Data model -/

/-- One memory slot (struct kvm_memory_slot): a contiguous guest-frame
range mapped to a contiguous host-virtual range.  The dirty bitmap is
modelled as the set of set bit indices (one bit per page, index relative
to base_gfn); `none` models a NULL bitmap pointer. -/
structure MemSlot where
  id : Nat
  base_gfn : Nat
  npages : Nat
  userspace_addr : Nat
  flags : Nat
  dirty_bitmap : Option (Finset Nat)
  deriving DecidableEq

/-- The versioned slot table (struct kvm_memslots).  Slots are addressed
by id (id_to_memslot); the placement sort by descending size only
permutes the backing array and is invisible through id lookup, so the
table is modelled as the id-indexed family of slots plus the
generation. -/
structure Memslots where
  slots : Nat → MemSlot
  generation : Nat

/-- id_to_memslot: fetch the slot with a given id. -/
def idToMemslot (k : Memslots) (id : Nat) : MemSlot := k.slots id

/-! ## Invalidation coordinator (mmu-notifier sequence/count protocol) -/

/-- The two counters of the invalidation handshake:
mmu_notifier_seq and mmu_notifier_count (the count is a C int and can
be driven negative by a protocol violation, hence Int). -/
structure InvState where
  seq : Nat
  count : Int
  deriving DecidableEq, Repr

/-- `kvm->mmu_notifier_seq++` (the first statement of
kvm_mmu_notifier_invalidate_range_end, before the write barrier). -/
def bumpSeq (s : InvState) : InvState := { s with seq := s.seq + 1 }

/-- `kvm->mmu_notifier_count--` (the second statement of
kvm_mmu_notifier_invalidate_range_end, after the write barrier). -/
def decCount (s : InvState) : InvState := { s with count := s.count - 1 }

/-- kvm_mmu_notifier_invalidate_range_end: bump the sequence, then
decrement the active count; BUG_ON a negative count (modelled as `none`:
the machine is killed, no error value is returned). -/
def invalidateRangeEnd (s : InvState) : Option InvState :=
  let s2 := decCount (bumpSeq s)
  if s2.count < 0 then none else some s2

/-- kvm_mmu_notifier_invalidate_range_start (counter part only): the
count increment that opens the invalidation window. -/
def invalidateRangeStart (s : InvState) : InvState :=
  { s with count := s.count + 1 }

/-! ## Translation fast path (hva_to_pfn_fast) -/

/-- Result of the fast-path pin attempt: whether the function reported
success, whether a page reference is actually held afterwards, and the
value stored through the writable out-parameter (when the caller passed
one). -/
structure FastPinResult where
  success : Bool
  pinnedPage : Bool
  writableOut : Option Bool
  deriving DecidableEq, Repr

/-- hva_to_pfn_fast.  `asyncPresent` models a non-NULL async pointer,
`writablePresent` a non-NULL writable out-pointer, and `pinOk` the
outcome of __get_user_pages_fast (which pins one page exactly when it
returns 1). -/
def hvaToPfnFast (atomic asyncPresent writeFault writablePresent pinOk : Bool) :
    FastPinResult :=
  if ¬(asyncPresent || atomic) then ⟨false, false, none⟩
  else if ¬(writeFault || writablePresent) then ⟨false, false, none⟩
  else if pinOk then
    ⟨true, true, if writablePresent then some true else none⟩
  else ⟨false, false, none⟩

/-! ## Slot-table mutation (__kvm_set_memory_region and helpers) -/

/-- A userspace set-region request (struct kvm_userspace_memory_region). -/
structure UserRegion where
  slot : Nat
  flags : Nat
  guest_phys_addr : Nat
  memory_size : Nat
  userspace_addr : Nat
  deriving DecidableEq

/-- Oracles for the fallible collaborators of __kvm_set_memory_region:
the access_ok userspace-range check, the allocations (arch memslot
backing, dirty bitmap, the two kmemdup table copies) and the
architecture prepare / IOMMU map hooks (0 means success, a nonzero
value is the returned error). -/
structure Oracles where
  accessOk : Bool
  archCreateOk : Bool
  bitmapAllocOk : Bool
  slotsDupOk : Bool
  slotsDup2Ok : Bool
  archPrepareRet : Int
  iommuRet : Int
  deriving DecidableEq

/-- The flag bits userspace may set (check_memory_region_flags):
KVM_MEM_LOG_DIRTY_PAGES, plus KVM_MEM_READONLY where the architecture
advertises KVM_CAP_READONLY_MEM. -/
def regionValidFlags : Nat := KVM_MEM_LOG_DIRTY_PAGES ||| KVM_MEM_READONLY

/-- The sanity checks at the head of __kvm_set_memory_region, each of
which rejects the request with -EINVAL before anything is touched:
unknown flag bits, unaligned size or guest address, unaligned or
inaccessible userspace address for a user slot, out-of-range slot id,
guest range wrap-around (u64 overflow), and an oversized page count. -/
def regionValidationFails (o : Oracles) (mem : UserRegion) : Bool :=
  (mem.flags &&& (U32_MASK ^^^ regionValidFlags) != 0) ||
  (mem.memory_size % PAGE_SIZE != 0) ||
  (mem.guest_phys_addr % PAGE_SIZE != 0) ||
  (decide (mem.slot < KVM_USER_MEM_SLOTS) &&
    ((mem.userspace_addr % PAGE_SIZE != 0) || !o.accessOk)) ||
  (decide (KVM_MEM_SLOTS_NUM ≤ mem.slot)) ||
  (decide ((mem.guest_phys_addr + mem.memory_size) % 2 ^ 64 < mem.guest_phys_addr)) ||
  (decide (KVM_MEM_MAX_NR_PAGES < mem.memory_size / PAGE_SIZE))

/-- The four topology-change kinds (enum kvm_mr_change). -/
inductive ChangeKind where
  | create
  | move
  | flagsOnly
  | delete
  deriving DecidableEq

/-- Outcome of the classification block of __kvm_set_memory_region:
rejected with -EINVAL, a successful nothing-to-change no-op, or one of
the four change kinds. -/
inductive Classify where
  | einval
  | noop
  | change (c : ChangeKind)
  deriving DecidableEq

/-- The classification block of __kvm_set_memory_region (the comparison
of the request against the existing slot with the same id).  `mflags`
is the request's flags word after KVM_MEM_LOG_DIRTY_PAGES has been
stripped for a zero-sized request. -/
def classifyRegion (old : MemSlot) (memUserAddr baseGfn npages mflags : Nat) :
    Classify :=
  if npages ≠ 0 then
    if old.npages = 0 then .change .create
    else
      if memUserAddr ≠ old.userspace_addr ∨ npages ≠ old.npages ∨
          (mflags ^^^ old.flags) &&& KVM_MEM_READONLY ≠ 0 then .einval
      else if baseGfn ≠ old.base_gfn then .change .move
      else if mflags ≠ old.flags then .change .flagsOnly
      else .noop
  else if old.npages ≠ 0 then .change .delete
  else .einval

/-- The overlap loop of __kvm_set_memory_region: scan every slot of the
table, skipping non-user slots and the slot being modified, and report
whether the requested guest-frame range intersects any of them.  (The
loop does not consult KVM_MEMSLOT_INVALID.) -/
def overlapExists (slots : Nat → MemSlot) (slotId baseGfn npages : Nat) : Bool :=
  (List.range KVM_MEM_SLOTS_NUM).any fun i =>
    let s := slots i
    if KVM_USER_MEM_SLOTS ≤ s.id ∨ s.id = slotId then false
    else !(decide (baseGfn + npages ≤ s.base_gfn) ||
           decide (s.base_gfn + s.npages ≤ baseGfn))

/-- update_memslots: overwrite the slot with the new slot's id (when one
is supplied) and stamp the table with last_generation + 1. -/
def updateMemslots (slots : Nat → MemSlot) (new : Option MemSlot)
    (lastGeneration : Nat) : Memslots :=
  { slots := match new with
      | some n => fun i => if i = n.id then n else slots i
      | none => slots
    generation := lastGeneration + 1 }

/-- install_new_memslots: build the next table from a slot array and an
optional replacement slot, stamping it with the currently active
table's generation + 1, and publish it (the atomic pointer swap and the
grace-period wait carry no further observable table state). -/
def installNewMemslots (active : Memslots) (slots : Nat → MemSlot)
    (new : Option MemSlot) : Memslots :=
  updateMemslots slots new active.generation

/-- The transitional table a DELETE or MOVE publishes before quiescing
shadow state: a copy of the active table whose target slot has
KVM_MEMSLOT_INVALID set, at generation + 1. -/
def invalidTransition (k : Memslots) (slotId : Nat) : Memslots :=
  installNewMemslots k
    (fun i => if i = slotId then
        { k.slots slotId with flags := (k.slots slotId).flags ||| KVM_MEMSLOT_INVALID }
      else k.slots i)
    none

/-- The request's flags word after the implicit clearing of
KVM_MEM_LOG_DIRTY_PAGES for a zero-sized (delete) request. -/
def regionMFlags (mem : UserRegion) (npages : Nat) : Nat :=
  if npages = 0 then mem.flags &&& (U32_MASK ^^^ KVM_MEM_LOG_DIRTY_PAGES)
  else mem.flags

/-- The candidate slot __kvm_set_memory_region builds from the request
(new = old, fields overridden; the inherited dirty bitmap dropped when
logging is not requested; the userspace address taken from the request
for CREATE only — for a modify it is already equal by the
classification guard). -/
def regionNewSlot (old : MemSlot) (mem : UserRegion) (c : ChangeKind)
    (baseGfn npages mflags : Nat) : MemSlot :=
  let new0 : MemSlot :=
    { old with id := mem.slot, base_gfn := baseGfn, npages := npages, flags := mflags }
  let new1 := if new0.flags &&& KVM_MEM_LOG_DIRTY_PAGES = 0 then
      { new0 with dirty_bitmap := none } else new0
  if c = .create then { new1 with userspace_addr := mem.userspace_addr } else new1

/-- kvm_create_dirty_bitmap's effect on the candidate slot: allocate a
zeroed bitmap when logging is requested and none is inherited. -/
def regionWithBitmap (n : MemSlot) : MemSlot :=
  if n.flags &&& KVM_MEM_LOG_DIRTY_PAGES ≠ 0 ∧ n.dirty_bitmap = none then
    { n with dirty_bitmap := some ∅ } else n

/-- The tail of __kvm_set_memory_region after the allocations: publish
the transitional invalid-marked table for DELETE and MOVE, run the
architecture prepare hook (and, for CREATE/MOVE, the IOMMU map), then
install the final table.  The failure exits after the transitional
publish leave that transitional table active. -/
def setRegionInstall (o : Oracles) (k : Memslots) (mem : UserRegion)
    (c : ChangeKind) (new3 : MemSlot) : Int × Memslots :=
  if c = .delete ∨ c = .move then
    if ¬o.slotsDupOk then (-ENOMEM, k)
    else if o.archPrepareRet ≠ 0 then
      (o.archPrepareRet, invalidTransition k mem.slot)
    else if c = .move ∧ o.iommuRet ≠ 0 then
      (o.iommuRet, invalidTransition k mem.slot)
    else
      (0, installNewMemslots (invalidTransition k mem.slot) k.slots
        (some (if c = .delete then { new3 with dirty_bitmap := none } else new3)))
  else
    if o.archPrepareRet ≠ 0 then (o.archPrepareRet, k)
    else if ¬o.slotsDup2Ok then (-ENOMEM, k)
    else if c = .create ∧ o.iommuRet ≠ 0 then (o.iommuRet, k)
    else (0, installNewMemslots k k.slots (some new3))

/-- __kvm_set_memory_region: returns the errno-style result together
with the table that is active when the call returns. -/
def kvmSetMemoryRegion (o : Oracles) (k : Memslots) (mem : UserRegion) :
    Int × Memslots :=
  if regionValidationFails o mem then (-EINVAL, k) else
  let old := idToMemslot k mem.slot
  let baseGfn := mem.guest_phys_addr / PAGE_SIZE
  let npages := mem.memory_size / PAGE_SIZE
  let mflags := regionMFlags mem npages
  match classifyRegion old mem.userspace_addr baseGfn npages mflags with
  | .einval => (-EINVAL, k)
  | .noop => (0, k)
  | .change c =>
    if (c = .create ∨ c = .move) ∧ overlapExists k.slots mem.slot baseGfn npages then
      (-EEXIST, k)
    else
      let new2 := regionNewSlot old mem c baseGfn npages mflags
      if c = .create ∧ ¬o.archCreateOk then (-ENOMEM, k) else
      if new2.flags &&& KVM_MEM_LOG_DIRTY_PAGES ≠ 0 ∧ new2.dirty_bitmap = none ∧
          ¬o.bitmapAllocOk then (-ENOMEM, k) else
      setRegionInstall o k mem c (regionWithBitmap new2)

/-! ## Guest-frame lookup and address translation -/

/-- Modelled from the spec: `lookup(gfn) -> slot|none` — the slot-table
search (search_memslots / __gfn_to_memslot, defined in the kvm_host.h
header which is not part of this tree): return the slot whose
guest-frame range [base_gfn, base_gfn + npages) contains gfn, none when
no slot contains it. -/
def gfnToMemslot (k : Memslots) (gfn : Nat) : Option MemSlot :=
  (List.range KVM_MEM_SLOTS_NUM).findSome? fun i =>
    let s := k.slots i
    if s.base_gfn ≤ gfn ∧ gfn < s.base_gfn + s.npages then some s else none

/-- Modelled from the spec: the base of the kernel address range;
userspace addresses lie below it, so values at or above it serve as
sentinel error "addresses" (PAGE_OFFSET of the 32-bit ARM headers,
which are not part of this tree). -/
def PAGE_OFFSET : Nat := 3221225472

/-- KVM_HVA_ERR_BAD: the no-mapping sentinel. -/
def KVM_HVA_ERR_BAD : Nat := PAGE_OFFSET

/-- KVM_HVA_ERR_RO_BAD: the write-to-read-only sentinel (a distinct
address, PAGE_OFFSET + PAGE_SIZE). -/
def KVM_HVA_ERR_RO_BAD : Nat := PAGE_OFFSET + PAGE_SIZE

/-- kvm_is_error_hva: any address at or above PAGE_OFFSET is an error
sentinel, not a translatable userspace address. -/
def kvmIsErrorHva (addr : Nat) : Bool := PAGE_OFFSET ≤ addr

/-- memslot_is_readonly. -/
def memslotIsReadonly (slot : MemSlot) : Bool :=
  slot.flags &&& KVM_MEM_READONLY ≠ 0

/-- Modelled from the spec: __gfn_to_hva_memslot (kvm_host.h header,
not part of this tree): the host virtual address backing a frame of a
slot, at the page offset of the frame relative to the slot's base. -/
def gfnToHvaMemslotRaw (slot : MemSlot) (gfn : Nat) : Nat :=
  slot.userspace_addr + (gfn - slot.base_gfn) * PAGE_SIZE

/-- __gfn_to_hva_many: resolve a frame against a slot.  Returns the
address (or an error sentinel) together with the remaining page count
the source writes through the nr_pages out-pointer (0 when it is left
unwritten on the error paths). -/
def gfnToHvaMany (slot : Option MemSlot) (gfn : Nat) (write : Bool) : Nat × Nat :=
  match slot with
  | none => (KVM_HVA_ERR_BAD, 0)
  | some s =>
    if s.flags &&& KVM_MEMSLOT_INVALID ≠ 0 then (KVM_HVA_ERR_BAD, 0)
    else if memslotIsReadonly s ∧ write then (KVM_HVA_ERR_RO_BAD, 0)
    else (gfnToHvaMemslotRaw s gfn, s.npages - (gfn - s.base_gfn))

/-- The pfn-space sentinels (KVM_PFN_ERR_* / KVM_PFN_NOSLOT of the
kvm_host.h header: error bits in the top of the 64-bit pfn space). -/
def KVM_PFN_ERR_FAULT : Nat := 2 ^ 62

def KVM_PFN_ERR_HWPOISON : Nat := 2 ^ 62 + 1

def KVM_PFN_ERR_RO_FAULT : Nat := 2 ^ 62 + 2

def KVM_PFN_NOSLOT : Nat := 2 ^ 63

/-- __gfn_to_pfn_memslot: translate through the slot to an hva, mapping
the read-only sentinel to KVM_PFN_ERR_RO_FAULT and any other error hva
to KVM_PFN_NOSLOT before the pinning pipeline (hva_to_pfn, abstracted
as the `pin` argument) is ever invoked; a writable out-parameter is
pre-set to false and dropped for a read-only slot. -/
def gfnToPfnMemslot (pin : Nat → Bool → Bool → Bool → Bool → Nat)
    (slot : Option MemSlot) (gfn : Nat) (atomic asyncPresent writeFault
    writablePresent : Bool) : Nat :=
  let addr := (gfnToHvaMany slot gfn writeFault).1
  if addr = KVM_HVA_ERR_RO_BAD then KVM_PFN_ERR_RO_FAULT
  else if kvmIsErrorHva addr then KVM_PFN_NOSLOT
  else
    let ro := match slot with
      | some s => memslotIsReadonly s
      | none => false
    let writablePresent' := if writablePresent && ro then false else writablePresent
    pin addr atomic asyncPresent writeFault writablePresent'

/-! ## Dirty tracking -/

/-- mark_page_dirty_in_slot: when the slot exists and owns a dirty
bitmap, set the bit at the frame's offset relative to the slot's own
base_gfn; otherwise do nothing. -/
def markPageDirtyInSlot (memslot : Option MemSlot) (gfn : Nat) : Option MemSlot :=
  match memslot with
  | some s =>
    match s.dirty_bitmap with
    | some bm => some { s with dirty_bitmap := some (insert (gfn - s.base_gfn) bm) }
    | none => some s
  | none => none

/-- kvm_get_dirty_log: validate the slot id, require a bitmap, compute
whether any bit is set, and hand back a copy of the live bitmap (the
copy_to_user transfer is the `copyOk` oracle); the live bitmap is not
cleared.  Result: (errno, copied bitmap, is_dirty). -/
def kvmGetDirtyLog (k : Memslots) (slotId : Nat) (copyOk : Bool) :
    Int × Option (Finset Nat) × Bool :=
  if KVM_USER_MEM_SLOTS ≤ slotId then (-EINVAL, none, false)
  else
    match (idToMemslot k slotId).dirty_bitmap with
    | none => (-ENOENT, none, false)
    | some bm =>
      if ¬copyOk then (-EFAULT, none, false)
      else (0, some bm, decide bm.Nonempty)

/-! ## Guest-address cache (gfn_to_hva_cache) -/

/-- struct gfn_to_hva_cache. -/
structure GhcState where
  gpa : Nat
  generation : Nat
  len : Nat
  memslot : Option MemSlot
  hva : Nat
  deriving DecidableEq

/-- The multi-slot validation loop of kvm_gfn_to_hva_cache_init: walk
the requested frame range slot by slot, failing with -EFAULT on any
hole.  Each successful step consumes at least one page, so the needed
page count bounds the iterations (the fuel). -/
def cacheInitLoop (k : Memslots) (endGfn : Nat) :
    Nat → Nat → GhcState → Int × GhcState
  | 0, _, ghc => (0, ghc)
  | fuel + 1, startGfn, ghc =>
    if startGfn ≤ endGfn then
      let ms := gfnToMemslot k startGfn
      let (hva, avail) := gfnToHvaMany ms startGfn true
      let ghc' := { ghc with memslot := ms, hva := hva }
      if kvmIsErrorHva hva then (-EFAULT, ghc')
      else cacheInitLoop k endGfn fuel (startGfn + avail) ghc'
    else (0, ghc)

/-- kvm_gfn_to_hva_cache_init: stamp the cache with the active table's
generation, resolve a single-page range directly, and validate a
multi-page range slot by slot, leaving memslot = none so later uses
take the segmented slow path. -/
def kvmGfnToHvaCacheInit (k : Memslots) (gpa len : Nat) : Int × GhcState :=
  let offset := gpa % PAGE_SIZE
  let startGfn := gpa / PAGE_SIZE
  let endGfn := (gpa + len - 1) / PAGE_SIZE
  let nrPagesNeeded := endGfn - startGfn + 1
  let ms := gfnToMemslot k startGfn
  let ghc : GhcState :=
    { gpa := gpa, generation := k.generation, len := len, memslot := ms,
      hva := (gfnToHvaMany ms startGfn true).1 }
  if ¬kvmIsErrorHva ghc.hva ∧ nrPagesNeeded ≤ 1 then
    (0, { ghc with hva := ghc.hva + offset })
  else
    let (r, ghc') := cacheInitLoop k endGfn nrPagesNeeded startGfn ghc
    if r ≠ 0 then (r, ghc')
    else (0, { ghc' with memslot := none })

/-- The observable outcome of kvm_write_guest_cached after the cache
check: fell back to the segmented kvm_write_guest slow path, failed
with -EFAULT (bad cached hva or faulting copy), or copied through the
cached hva (which also marks the page dirty in the cached slot). -/
inductive WriteCachedOutcome where
  | slowPath
  | efault
  | copied
  deriving DecidableEq

/-- kvm_write_guest_cached: revalidate the cache when its recorded
generation differs from the active table's, then use it.  Returns the
outcome together with the cache state that was actually consulted. -/
def kvmWriteGuestCached (k : Memslots) (ghc : GhcState) (copyOk : Bool) :
    WriteCachedOutcome × GhcState :=
  let ghc1 := if k.generation ≠ ghc.generation then
      (kvmGfnToHvaCacheInit k ghc.gpa ghc.len).2
    else ghc
  if ghc1.memslot = none then (.slowPath, ghc1)
  else if kvmIsErrorHva ghc1.hva then (.efault, ghc1)
  else if ¬copyOk then (.efault, ghc1)
  else (.copied, ghc1)

/-! ## I/O bus dispatcher -/

/-- One registered range of an I/O bus (struct kvm_io_range); the
device handle is a plain identifier. -/
structure IoRange where
  addr : Nat
  len : Nat
  dev : Nat
  deriving DecidableEq

/-- kvm_io_bus_sort_cmp: order by start address; a range whose end
extends past the other's end sorts after it; anything else (the first
range contained in the second) compares equal. -/
def ioBusSortCmp (r1 r2 : IoRange) : Int :=
  if r1.addr < r2.addr then -1
  else if r2.addr + r2.len < r1.addr + r1.len then 1
  else 0

/-- A default range for out-of-bounds array reads (never reached on the
paths the source takes). -/
def ioRangeDefault : IoRange := ⟨0, 0, 0⟩

/-- The C library binary search (bsearch) over index range [lo, hi):
probe the middle, descend left on a negative comparison, right on a
positive one, and return the probed index on zero.  The interval width
strictly shrinks on every iteration, so running it with fuel at least
the initial width is the exact loop. -/
def bsearchLoop (f : Nat → Int) : Nat → Nat → Nat → Option Nat
  | 0, _, _ => none
  | fuel + 1, lo, hi =>
    if lo < hi then
      if f (lo + (hi - lo) / 2) < 0 then bsearchLoop f fuel lo (lo + (hi - lo) / 2)
      else if 0 < f (lo + (hi - lo) / 2) then
        bsearchLoop f fuel (lo + (hi - lo) / 2 + 1) hi
      else some (lo + (hi - lo) / 2)
    else none

/-- The rewind loop of kvm_io_bus_get_first_dev: step back while the
previous range still compares equal to the key. -/
def ioWalkBack (cmpKey : Nat → Int) : Nat → Nat
  | 0 => 0
  | off + 1 => if cmpKey off = 0 then ioWalkBack cmpKey off else off + 1

/-- kvm_io_bus_get_first_dev: binary-search the sorted range table for
an entry comparing equal to the (addr, len) key, then rewind to the
first entry of the contiguous equal run containing the hit; none models
the -ENOENT miss. -/
def kvmIoBusGetFirstDev (bus : List IoRange) (addr len : Nat) : Option Nat :=
  let key : IoRange := ⟨addr, len, 0⟩
  let cmpKey := fun i => ioBusSortCmp key (bus.getD i ioRangeDefault)
  match bsearchLoop cmpKey bus.length 0 bus.length with
  | none => none
  | some off => some (ioWalkBack cmpKey off)

/-- The dispatch loop shared by kvm_io_bus_write and kvm_io_bus_read:
starting at idx, offer the access to each successive range that still
compares equal to the key (the device handler outcome is the `handled`
oracle, true when the device reports the access consumed); return 0 on
the first device that handles it, -EOPNOTSUPP when the run is
exhausted. -/
def ioScanFrom (handled : Nat → Bool) (bus : List IoRange) (key : IoRange) :
    Nat → Nat → Int
  | 0, _ => -EOPNOTSUPP
  | fuel + 1, idx =>
    if idx < bus.length ∧ ioBusSortCmp key (bus.getD idx ioRangeDefault) = 0 then
      if handled (bus.getD idx ioRangeDefault).dev then 0
      else ioScanFrom handled bus key fuel (idx + 1)
    else -EOPNOTSUPP

/-- kvm_io_bus_write (kvm_io_bus_read is identical up to the device
callback): find the first candidate range, then scan the equal run; a
binary-search miss or an exhausted run is -EOPNOTSUPP. -/
def kvmIoBusWrite (handled : Nat → Bool) (bus : List IoRange) (addr len : Nat) :
    Int :=
  let key : IoRange := ⟨addr, len, 0⟩
  match kvmIoBusGetFirstDev bus addr len with
  | none => -EOPNOTSUPP
  | some idx => ioScanFrom handled bus key (bus.length - idx) idx

/-! ## Concrete fixtures shared by witnesses and counterexamples -/

/-- An empty (never-created) slot as kvm_init initialises it: only the
id field is populated. -/
def emptySlotAt (i : Nat) : MemSlot := ⟨i, 0, 0, 0, 0, none⟩

/-- Oracles with every collaborator succeeding. -/
def oraclesOk : Oracles := ⟨true, true, true, true, true, 0, 0⟩

/-- A table holding one user slot: id 0, frames [0, 1), backed at
userspace address 4096, no flags, generation 5. -/
def tableOneSlot : Memslots :=
  ⟨fun i => if i = 0 then ⟨0, 0, 1, 4096, 0, none⟩ else emptySlotAt i, 5⟩

/-! ## Theorems -/

/-- C2: on a range-invalidate-end event the sequence counter is bumped
first — the intermediate state reached between the two statements of
kvm_mmu_notifier_invalidate_range_end carries the new sequence and the
still-undecremented count — and only then is the active count
decremented; a count that would become negative is fatal (BUG_ON, the
whole instance dies: `none`), never an error return. -/
theorem invalidate_range_end_seq_before_dec (s : InvState) :
    (bumpSeq s).seq = s.seq + 1 ∧ (bumpSeq s).count = s.count ∧
    invalidateRangeEnd s = (if s.count - 1 < 0 then none
      else some (decCount (bumpSeq s))) ∧
    (∀ t, invalidateRangeEnd s = some t →
      t.seq = s.seq + 1 ∧ t.count = s.count - 1 ∧ 0 ≤ t.count) ∧
    (invalidateRangeEnd s = none ↔ s.count - 1 < 0) := by
  refine ⟨rfl, rfl, ?_, ?_, ?_⟩
  · simp [invalidateRangeEnd, decCount, bumpSeq]
  · intro t ht
    simp only [invalidateRangeEnd, decCount, bumpSeq] at ht
    split at ht
    next => exact absurd ht (by simp)
    next h =>
      cases ht
      refine ⟨rfl, rfl, ?_⟩
      simp only [not_lt] at h
      exact h
  · simp only [invalidateRangeEnd, decCount, bumpSeq]
    split <;> simp_all

/-- Witness for C2: ending an invalidation window from sequence 7 with
one active window yields sequence 8, count 0, and is not fatal. -/
theorem invalidate_range_end_seq_before_dec_witness :
    invalidateRangeEnd ⟨7, 1⟩ = some ⟨8, 0⟩ ∧
    (∀ t, invalidateRangeEnd ⟨7, 1⟩ = some t →
      t.seq = 7 + 1 ∧ t.count = 1 - 1 ∧ 0 ≤ t.count) := by
  refine ⟨by decide, (invalidate_range_end_seq_before_dec ⟨7, 1⟩).2.2.2.1⟩

/-- C7: the fast translation path succeeds exactly when the caller
allows atomic or asynchronous behaviour, the access is a write fault or
the caller accepts a writable mapping for a read, and the non-blocking
pin itself succeeds; a page reference is held exactly on success, and a
success always reports the mapping writable through the out-parameter
when the caller supplied one. -/
theorem hva_to_pfn_fast_gating (atomic asyncPresent writeFault writablePresent
    pinOk : Bool) :
    (hvaToPfnFast atomic asyncPresent writeFault writablePresent pinOk).success =
      ((asyncPresent || atomic) && (writeFault || writablePresent) && pinOk) ∧
    (hvaToPfnFast atomic asyncPresent writeFault writablePresent pinOk).pinnedPage =
      (hvaToPfnFast atomic asyncPresent writeFault writablePresent pinOk).success ∧
    (hvaToPfnFast atomic asyncPresent writeFault writablePresent pinOk).writableOut =
      (if (hvaToPfnFast atomic asyncPresent writeFault writablePresent pinOk).success
          && writablePresent then some true else none) := by
  revert atomic asyncPresent writeFault writablePresent pinOk
  decide

/-- C8: a write-intent translation against a read-only (non-invalid)
slot yields KVM_PFN_ERR_RO_FAULT, while a frame in no slot or in an
invalid-during-transition slot yields KVM_PFN_NOSLOT; the two pfn
sentinels (and the two underlying hva sentinels) are distinct, and in
all three cases the result is the sentinel for every possible pinning
pipeline, i.e. no pin is ever attempted. -/
theorem gfn_to_pfn_error_discrimination (r s : MemSlot)
    (hrInv : r.flags &&& KVM_MEMSLOT_INVALID = 0)
    (hrRo : memslotIsReadonly r = true)
    (hsInv : s.flags &&& KVM_MEMSLOT_INVALID ≠ 0) :
    (∀ pin gfn atomic asyncPresent writablePresent,
      gfnToPfnMemslot pin (some r) gfn atomic asyncPresent true writablePresent =
        KVM_PFN_ERR_RO_FAULT) ∧
    (∀ pin gfn atomic asyncPresent writeFault writablePresent,
      gfnToPfnMemslot pin none gfn atomic asyncPresent writeFault writablePresent =
        KVM_PFN_NOSLOT) ∧
    (∀ pin gfn atomic asyncPresent writeFault writablePresent,
      gfnToPfnMemslot pin (some s) gfn atomic asyncPresent writeFault writablePresent =
        KVM_PFN_NOSLOT) ∧
    KVM_PFN_ERR_RO_FAULT ≠ KVM_PFN_NOSLOT ∧
    KVM_HVA_ERR_RO_BAD ≠ KVM_HVA_ERR_BAD := by
  refine ⟨?_, ?_, ?_, by decide, by decide⟩
  · intro pin gfn atomic asyncPresent writablePresent
    simp [gfnToPfnMemslot, gfnToHvaMany, hrInv, hrRo]
  · intro pin gfn atomic asyncPresent writeFault writablePresent
    simp [gfnToPfnMemslot, gfnToHvaMany, kvmIsErrorHva, KVM_HVA_ERR_BAD,
      KVM_HVA_ERR_RO_BAD, PAGE_OFFSET, PAGE_SIZE]
  · intro pin gfn atomic asyncPresent writeFault writablePresent
    simp [gfnToPfnMemslot, gfnToHvaMany, hsInv, kvmIsErrorHva, KVM_HVA_ERR_BAD,
      KVM_HVA_ERR_RO_BAD, PAGE_OFFSET, PAGE_SIZE]

/-- Witness for C8: a concrete read-only slot and a concrete
invalid-marked slot exhibit the two distinct error sentinels. -/
theorem gfn_to_pfn_error_discrimination_witness :
    gfnToPfnMemslot (fun _ _ _ _ _ => 0) (some ⟨1, 0, 4, 8192, 2, none⟩) 2
      false false true false = KVM_PFN_ERR_RO_FAULT ∧
    gfnToPfnMemslot (fun _ _ _ _ _ => 0) (some ⟨2, 0, 4, 8192, 65536, none⟩) 2
      false false true false = KVM_PFN_NOSLOT := by
  have h := gfn_to_pfn_error_discrimination ⟨1, 0, 4, 8192, 2, none⟩
    ⟨2, 0, 4, 8192, 65536, none⟩ (by decide) (by decide) (by decide)
  exact ⟨h.1 _ 2 false false false, h.2.2.1 _ 2 false false true false⟩

/-- A table whose slot 0 spans 2 pages at userspace address 4096. -/
def tableTwoPages : Memslots :=
  ⟨fun i => if i = 0 then ⟨0, 0, 2, 4096, 0, none⟩ else emptySlotAt i, 5⟩

/-- C4 (counterexample): a modify request that keeps the host-virtual
base and every flag but resizes the region from 2 to 4 pages is
rejected with -EINVAL, although the claim allows rejection only for the
combination that changes the host-virtual base while also resizing. -/
theorem classify_pure_resize_rejected :
    classifyRegion ⟨0, 0, 2, 4096, 0, none⟩ 4096 0 4 0 = .einval ∧
    (⟨0, 0, 2, 4096, 0, none⟩ : MemSlot).userspace_addr = 4096 ∧
    (⟨0, 0, 2, 4096, 0, none⟩ : MemSlot).npages ≠ 4 ∧
    (kvmSetMemoryRegion oraclesOk tableTwoPages ⟨0, 0, 0, 16384, 4096⟩).1 =
      -EINVAL := by
  decide

/-- C4 (amended): the classification of a set-region request against
the existing slot of the same id — CREATE for a nonzero-sized request
on an absent slot, DELETE for a zero-sized request on a present slot,
and, for a modify of a present slot, MOVE when the base frame changes
and FLAGS_ONLY when only the flags change, but only after a guard that
rejects as invalid ANY modify that changes the host-virtual base, or
changes the (nonzero) size, or toggles the read-only flag; a request
naming an absent slot with zero size is invalid, and a modify changing
nothing is the successful no-op. -/
theorem classify_region_characterization (old : MemSlot)
    (memUserAddr baseGfn npages mflags : Nat) :
    (classifyRegion old memUserAddr baseGfn npages mflags = .change .create ↔
      npages ≠ 0 ∧ old.npages = 0) ∧
    (classifyRegion old memUserAddr baseGfn npages mflags = .change .delete ↔
      npages = 0 ∧ old.npages ≠ 0) ∧
    (classifyRegion old memUserAddr baseGfn npages mflags = .change .move ↔
      npages ≠ 0 ∧ old.npages ≠ 0 ∧ memUserAddr = old.userspace_addr ∧
      npages = old.npages ∧ (mflags ^^^ old.flags) &&& KVM_MEM_READONLY = 0 ∧
      baseGfn ≠ old.base_gfn) ∧
    (classifyRegion old memUserAddr baseGfn npages mflags = .change .flagsOnly ↔
      npages ≠ 0 ∧ old.npages ≠ 0 ∧ memUserAddr = old.userspace_addr ∧
      npages = old.npages ∧ (mflags ^^^ old.flags) &&& KVM_MEM_READONLY = 0 ∧
      baseGfn = old.base_gfn ∧ mflags ≠ old.flags) ∧
    (classifyRegion old memUserAddr baseGfn npages mflags = .noop ↔
      npages ≠ 0 ∧ old.npages ≠ 0 ∧ memUserAddr = old.userspace_addr ∧
      npages = old.npages ∧ baseGfn = old.base_gfn ∧ mflags = old.flags) ∧
    (classifyRegion old memUserAddr baseGfn npages mflags = .einval ↔
      (npages = 0 ∧ old.npages = 0) ∨
      (npages ≠ 0 ∧ old.npages ≠ 0 ∧ (memUserAddr ≠ old.userspace_addr ∨
        npages ≠ old.npages ∨
        (mflags ^^^ old.flags) &&& KVM_MEM_READONLY ≠ 0))) := by
  simp only [classifyRegion]
  split_ifs with h1 h2 h3 h4 h5 <;> simp_all [Nat.xor_self] <;> try tauto
  refine ⟨?_, ?_, ?_⟩ <;> intros <;> subst_vars <;>
    try simp_all [Nat.xor_self, Nat.zero_and]
  intro h7
  subst h7
  simp [Nat.xor_self, Nat.zero_and] at h3

/-- C10: a set-region request that passes the sanity checks and whose
base frame, (nonzero) page count, host-virtual base and flags all equal
those of the installed slot with the same id succeeds as a no-op:
result 0 and the very table that was active before, same generation,
every slot untouched, nothing built or published. -/
theorem set_region_nochange_noop (o : Oracles) (k : Memslots) (mem : UserRegion)
    (hval : regionValidationFails o mem = false)
    (hnp : mem.memory_size / PAGE_SIZE ≠ 0)
    (hold : (idToMemslot k mem.slot).npages = mem.memory_size / PAGE_SIZE)
    (hua : (idToMemslot k mem.slot).userspace_addr = mem.userspace_addr)
    (hbase : (idToMemslot k mem.slot).base_gfn = mem.guest_phys_addr / PAGE_SIZE)
    (hflags : (idToMemslot k mem.slot).flags = mem.flags) :
    kvmSetMemoryRegion o k mem = (0, k) := by
  have hc : classifyRegion (idToMemslot k mem.slot) mem.userspace_addr
      (mem.guest_phys_addr / PAGE_SIZE) (mem.memory_size / PAGE_SIZE)
      (regionMFlags mem (mem.memory_size / PAGE_SIZE)) = .noop := by
    rw [regionMFlags, if_neg hnp]
    simp [classifyRegion, hold, hua, hbase, hflags, hnp, Nat.xor_self]
  simp [kvmSetMemoryRegion, hval, hc]

/-- Witness for C10: re-submitting the installed slot 0 of the
one-slot table verbatim returns success and leaves the table value
untouched. -/
theorem set_region_nochange_noop_witness :
    kvmSetMemoryRegion oraclesOk tableOneSlot ⟨0, 0, 0, 4096, 4096⟩ =
      (0, tableOneSlot) :=
  set_region_nochange_noop oraclesOk tableOneSlot ⟨0, 0, 0, 4096, 4096⟩
    (by decide) (by decide) (by decide) (by decide) (by decide) (by decide)

/-- Oracles with a failing architecture prepare hook (returning
-EINVAL) and every allocation succeeding. -/
def oraclesPrepareFail : Oracles := ⟨true, true, true, true, true, -22, 0⟩

/-- C1 (counterexample): a MOVE of slot 0 whose architecture prepare
hook fails leaves a CHANGED table visible: the call fails, yet the slot
now carries KVM_MEMSLOT_INVALID and the generation was bumped — the
transitional table, not the previous one, stays published. -/
theorem set_region_move_prepare_fail_alters_table :
    (kvmSetMemoryRegion oraclesPrepareFail tableOneSlot
      ⟨0, 0, 40960, 4096, 4096⟩).1 ≠ 0 ∧
    ((kvmSetMemoryRegion oraclesPrepareFail tableOneSlot
      ⟨0, 0, 40960, 4096, 4096⟩).2.slots 0).flags ≠ (tableOneSlot.slots 0).flags ∧
    ((kvmSetMemoryRegion oraclesPrepareFail tableOneSlot
      ⟨0, 0, 40960, 4096, 4096⟩).2.slots 0).flags &&& KVM_MEMSLOT_INVALID ≠ 0 ∧
    (kvmSetMemoryRegion oraclesPrepareFail tableOneSlot
      ⟨0, 0, 40960, 4096, 4096⟩).2.generation ≠ tableOneSlot.generation := by
  decide

/-- Helper: a failing install phase leaves either the original table or,
only for DELETE/MOVE, the transitional invalid-marked table. -/
lemma setRegionInstall_fail (o : Oracles) (k : Memslots) (mem : UserRegion)
    (c : ChangeKind) (n : MemSlot)
    (h : (setRegionInstall o k mem c n).1 ≠ 0) :
    (setRegionInstall o k mem c n).2 = k ∨
      ((setRegionInstall o k mem c n).2 = invalidTransition k mem.slot ∧
        (c = .move ∨ c = .delete)) := by
  revert h
  unfold setRegionInstall
  split
  next hcd =>
    split
    next => exact fun _ => Or.inl rfl
    next =>
      split
      next => exact fun _ => Or.inr ⟨rfl, hcd.symm⟩
      next =>
        split
        next => exact fun _ => Or.inr ⟨rfl, hcd.symm⟩
        next => exact fun h0 => absurd rfl h0
  next =>
    split
    next => exact fun _ => Or.inl rfl
    next =>
      split
      next => exact fun _ => Or.inl rfl
      next =>
        split
        next => exact fun _ => Or.inl rfl
        next => exact fun h0 => absurd rfl h0

/-- C1 (amended): a failing set-region request leaves the previously
active table unchanged — base, size, flags and bitmap of every slot —
EXCEPT when a MOVE or DELETE fails after its transitional publish (arch
prepare hook or IOMMU map failure), in which case exactly the
transitional table stays visible: the previous table with the target
slot additionally marked invalid-during-transition and the generation
bumped.  No other partial state is ever published. -/
theorem set_region_failure_table_states (o : Oracles) (k : Memslots)
    (mem : UserRegion) (hfail : (kvmSetMemoryRegion o k mem).1 ≠ 0) :
    (kvmSetMemoryRegion o k mem).2 = k ∨
      ((kvmSetMemoryRegion o k mem).2 = invalidTransition k mem.slot ∧
        (classifyRegion (idToMemslot k mem.slot) mem.userspace_addr
            (mem.guest_phys_addr / PAGE_SIZE) (mem.memory_size / PAGE_SIZE)
            (regionMFlags mem (mem.memory_size / PAGE_SIZE)) = .change .move ∨
          classifyRegion (idToMemslot k mem.slot) mem.userspace_addr
            (mem.guest_phys_addr / PAGE_SIZE) (mem.memory_size / PAGE_SIZE)
            (regionMFlags mem (mem.memory_size / PAGE_SIZE)) = .change .delete)) := by
  revert hfail
  simp only [kvmSetMemoryRegion]
  split
  next => exact fun _ => Or.inl rfl
  next =>
    split
    next => exact fun _ => Or.inl rfl
    next => exact fun h => absurd rfl h
    next c hcls =>
      split
      next => exact fun _ => Or.inl rfl
      next =>
        split
        next => exact fun _ => Or.inl rfl
        next =>
          split
          next => exact fun _ => Or.inl rfl
          next =>
            intro h
            rcases setRegionInstall_fail o k mem c _ h with h1 | ⟨h2, h3⟩
            · exact Or.inl h1
            · refine Or.inr ⟨h2, ?_⟩
              rw [hcls]
              rcases h3 with rfl | rfl
              · exact Or.inl rfl
              · exact Or.inr rfl

/-- Witness for C1's amended theorem: the failing MOVE of the
counterexample input indeed lands on the transitional table (the right
disjunct). -/
theorem set_region_failure_table_states_witness :
    (kvmSetMemoryRegion oraclesPrepareFail tableOneSlot
        ⟨0, 0, 40960, 4096, 4096⟩).2 = tableOneSlot ∨
      ((kvmSetMemoryRegion oraclesPrepareFail tableOneSlot
          ⟨0, 0, 40960, 4096, 4096⟩).2 = invalidTransition tableOneSlot 0 ∧
        (classifyRegion (idToMemslot tableOneSlot 0) 4096 (40960 / PAGE_SIZE)
            (4096 / PAGE_SIZE)
            (regionMFlags ⟨0, 0, 40960, 4096, 4096⟩ (4096 / PAGE_SIZE)) =
            .change .move ∨
          classifyRegion (idToMemslot tableOneSlot 0) 4096 (40960 / PAGE_SIZE)
            (4096 / PAGE_SIZE)
            (regionMFlags ⟨0, 0, 40960, 4096, 4096⟩ (4096 / PAGE_SIZE)) =
            .change .delete)) :=
  set_region_failure_table_states oraclesPrepareFail tableOneSlot
    ⟨0, 0, 40960, 4096, 4096⟩ (by decide)

/-- Helper: the install phase can only return 0, -ENOMEM, or the value
of one of the two architecture hooks — never -EEXIST of its own. -/
lemma setRegionInstall_fst (o : Oracles) (k : Memslots) (mem : UserRegion)
    (c : ChangeKind) (n : MemSlot) :
    (setRegionInstall o k mem c n).1 = 0 ∨
      (setRegionInstall o k mem c n).1 = -ENOMEM ∨
      (setRegionInstall o k mem c n).1 = o.archPrepareRet ∨
      (setRegionInstall o k mem c n).1 = o.iommuRet := by
  unfold setRegionInstall
  repeat' split
  all_goals simp

/-- A table for the C3 counterexample: a live slot 0 on frames [0, 4)
and a slot 1 on frames [0, 16) that carries KVM_MEMSLOT_INVALID. -/
def tableWithInvalidSlot : Memslots :=
  ⟨fun i =>
    if i = 0 then ⟨0, 0, 4, 4096, 0, none⟩
    else if i = 1 then ⟨1, 0, 16, 131072, 65536, none⟩
    else emptySlotAt i, 5⟩

/-- C3 (counterexample): a CREATE on frames [8, 12) — disjoint from
every slot not marked invalid (slot 0 spans [0, 4)) but intersecting
the invalid-marked slot 1 — fails with -EEXIST, although the claim says
the overlap check passes when the range is disjoint from every
non-invalid user slot. -/
theorem overlap_check_counts_invalid_slot :
    (tableWithInvalidSlot.slots 1).flags &&& KVM_MEMSLOT_INVALID ≠ 0 ∧
    (8 + 4 ≤ (tableWithInvalidSlot.slots 0).base_gfn ∨
      (tableWithInvalidSlot.slots 0).base_gfn +
        (tableWithInvalidSlot.slots 0).npages ≤ 8) ∧
    (kvmSetMemoryRegion oraclesOk tableWithInvalidSlot
      ⟨2, 0, 32768, 16384, 262144⟩).1 = -EEXIST ∧
    (kvmSetMemoryRegion oraclesOk tableWithInvalidSlot
      ⟨2, 0, 32768, 16384, 262144⟩).2.generation =
      tableWithInvalidSlot.generation ∧
    (kvmSetMemoryRegion oraclesOk tableWithInvalidSlot
      ⟨2, 0, 32768, 16384, 262144⟩).2.slots 2 = tableWithInvalidSlot.slots 2 := by
  decide

/-- C3 (amended): for a request classified CREATE or MOVE, the overlap
check scans ALL other user slots — including slots currently marked
invalid-during-transition — and any intersection fails the call with
-EEXIST leaving the table unchanged; the check passes (and -EEXIST
cannot be returned, the architecture hooks aside) exactly when the
requested range is disjoint from every other user slot, invalid ones
included. -/
theorem set_region_overlap_check (o : Oracles) (k : Memslots) (mem : UserRegion)
    (hval : regionValidationFails o mem = false)
    (hcm : classifyRegion (idToMemslot k mem.slot) mem.userspace_addr
        (mem.guest_phys_addr / PAGE_SIZE) (mem.memory_size / PAGE_SIZE)
        (regionMFlags mem (mem.memory_size / PAGE_SIZE)) = .change .create ∨
      classifyRegion (idToMemslot k mem.slot) mem.userspace_addr
        (mem.guest_phys_addr / PAGE_SIZE) (mem.memory_size / PAGE_SIZE)
        (regionMFlags mem (mem.memory_size / PAGE_SIZE)) = .change .move) :
    (overlapExists k.slots mem.slot (mem.guest_phys_addr / PAGE_SIZE)
        (mem.memory_size / PAGE_SIZE) = true ↔
      ∃ i < KVM_MEM_SLOTS_NUM, (k.slots i).id < KVM_USER_MEM_SLOTS ∧
        (k.slots i).id ≠ mem.slot ∧
        ¬(mem.guest_phys_addr / PAGE_SIZE + mem.memory_size / PAGE_SIZE ≤
            (k.slots i).base_gfn ∨
          (k.slots i).base_gfn + (k.slots i).npages ≤
            mem.guest_phys_addr / PAGE_SIZE)) ∧
    (overlapExists k.slots mem.slot (mem.guest_phys_addr / PAGE_SIZE)
        (mem.memory_size / PAGE_SIZE) = true →
      kvmSetMemoryRegion o k mem = (-EEXIST, k)) ∧
    (overlapExists k.slots mem.slot (mem.guest_phys_addr / PAGE_SIZE)
        (mem.memory_size / PAGE_SIZE) = false →
      o.archPrepareRet ≠ -EEXIST → o.iommuRet ≠ -EEXIST →
      (kvmSetMemoryRegion o k mem).1 ≠ -EEXIST) := by
  refine ⟨?_, ?_, ?_⟩
  · simp only [overlapExists, List.any_eq_true, List.mem_range]
    constructor
    · rintro ⟨i, hi, hb⟩
      refine ⟨i, hi, ?_⟩
      by_cases hskip : KVM_USER_MEM_SLOTS ≤ (k.slots i).id ∨ (k.slots i).id = mem.slot
      · rw [if_pos hskip] at hb
        exact absurd hb (by simp)
      · rw [if_neg hskip] at hb
        push_neg at hskip
        refine ⟨by omega, hskip.2, ?_⟩
        intro hcon
        rcases hcon with hcon | hcon <;> simp [hcon] at hb
    · rintro ⟨i, hi, hid1, hid2, hdisj⟩
      refine ⟨i, hi, ?_⟩
      rw [if_neg (by omega)]
      push_neg at hdisj
      simp [hdisj.1, hdisj.2]
  · intro hov
    rcases hcm with hc | hc <;>
      simp [kvmSetMemoryRegion, hval, hc, hov]
  · intro hov hpr hio
    have hins : ∀ c n, (setRegionInstall o k mem c n).1 ≠ -EEXIST := by
      intro c n
      rcases setRegionInstall_fst o k mem c n with h | h | h | h <;> rw [h] <;>
        first
          | decide
          | exact hpr
          | exact hio
    rcases hcm with hc | hc <;>
      simp [kvmSetMemoryRegion, hval, hc, hov] <;>
      split_ifs <;>
      first
        | exact hins _ _
        | simp [ENOMEM, EEXIST]

/-- Witness for C3's amended theorem: on the invalid-slot table, the
overlapping CREATE is indeed rejected with -EEXIST, table unchanged. -/
theorem set_region_overlap_check_witness :
    kvmSetMemoryRegion oraclesOk tableWithInvalidSlot
      ⟨2, 0, 32768, 16384, 262144⟩ = (-EEXIST, tableWithInvalidSlot) :=
  (set_region_overlap_check oraclesOk tableWithInvalidSlot
    ⟨2, 0, 32768, 16384, 262144⟩ (by decide) (Or.inl (by decide))).2.1 (by decide)

/-- Helper: folding dirty marks over a slot with a bitmap accumulates
exactly the base-relative offsets of the marked frames. -/
lemma markPageDirtyInSlot_foldl (gfns : List Nat) :
    ∀ (s : MemSlot) (B : Finset Nat), s.dirty_bitmap = some B →
      List.foldl markPageDirtyInSlot (some s) gfns =
        some { s with
          dirty_bitmap := some (B ∪ (gfns.map (fun g => g - s.base_gfn)).toFinset) } := by
  induction gfns with
  | nil =>
    intro s B hB
    simp only [List.foldl_nil, List.map_nil, List.toFinset_nil, Finset.union_empty]
    rw [← hB]
  | cons g gs ih =>
    intro s B hB
    simp only [List.foldl_cons, markPageDirtyInSlot, hB]
    rw [ih { s with dirty_bitmap := some (insert (g - s.base_gfn) B) }
      (insert (g - s.base_gfn) B) rfl]
    simp only [List.map_cons, List.toFinset_cons]
    congr 2
    rw [Finset.insert_union, Finset.union_insert]

/-- C6: dirty marking on a slot that owns a bitmap sets exactly the bit
at the frame's offset relative to the slot's own base (never the
absolute frame number); a slot without a bitmap is left untouched; after
N marks on N distinct in-range frames of an initially clean logged slot
the bitmap holds exactly those N relative bits, and get_dirty_log hands
back precisely that live bitmap (without clearing it) plus whether any
bit is set; and the slot value set_region builds carries a bitmap
exactly when its flags request dirty logging. -/
theorem dirty_tracking_exact_bits (s : MemSlot) (gfns : List Nat)
    (k : Memslots) (id : Nat)
    (hbm : s.dirty_bitmap = some ∅)
    (hnodup : gfns.Nodup)
    (hrange : ∀ g ∈ gfns, s.base_gfn ≤ g ∧ g < s.base_gfn + s.npages)
    (hid : id < KVM_USER_MEM_SLOTS)
    (hslot : k.slots id = { s with
      dirty_bitmap := some ((gfns.map (fun g => g - s.base_gfn)).toFinset) }) :
    (∀ (t : MemSlot) (B : Finset Nat) (g : Nat), t.dirty_bitmap = some B →
      markPageDirtyInSlot (some t) g =
        some { t with dirty_bitmap := some (insert (g - t.base_gfn) B) }) ∧
    (∀ (t : MemSlot) (g : Nat), t.dirty_bitmap = none →
      markPageDirtyInSlot (some t) g = some t) ∧
    List.foldl markPageDirtyInSlot (some s) gfns =
      some { s with
        dirty_bitmap := some ((gfns.map (fun g => g - s.base_gfn)).toFinset) } ∧
    ((gfns.map (fun g => g - s.base_gfn)).toFinset).card = gfns.length ∧
    kvmGetDirtyLog k id true =
      (0, some ((gfns.map (fun g => g - s.base_gfn)).toFinset), !gfns.isEmpty) ∧
    (∀ (old : MemSlot) (mem : UserRegion) (c : ChangeKind) (b n f : Nat),
      ((regionWithBitmap (regionNewSlot old mem c b n f)).flags &&&
          KVM_MEM_LOG_DIRTY_PAGES = 0 →
        (regionWithBitmap (regionNewSlot old mem c b n f)).dirty_bitmap = none) ∧
      ((regionWithBitmap (regionNewSlot old mem c b n f)).flags &&&
          KVM_MEM_LOG_DIRTY_PAGES ≠ 0 →
        (regionWithBitmap (regionNewSlot old mem c b n f)).dirty_bitmap ≠ none)) := by
  refine ⟨?_, ?_, markPageDirtyInSlot_foldl gfns s ∅ hbm, ?_, ?_, ?_⟩
  · intro t B g hB
    simp [markPageDirtyInSlot, hB]
  · intro t g hB
    simp [markPageDirtyInSlot, hB]
  · rw [List.toFinset_card_of_nodup, List.length_map]
    refine List.Nodup.map_on ?_ hnodup
    intro x hx y hy hxy
    have hx' := hrange x hx
    have hy' := hrange y hy
    omega
  · have hle : ¬KVM_USER_MEM_SLOTS ≤ id := by omega
    have hd : (decide ((gfns.map (fun g => g - s.base_gfn)).toFinset).Nonempty)
        = !gfns.isEmpty := by
      rcases gfns with _ | ⟨g, gs⟩
      · simp
      · simp only [List.isEmpty_cons, Bool.not_false, decide_eq_true_eq]
        exact ⟨g - s.base_gfn, by simp⟩
    simp [kvmGetDirtyLog, idToMemslot, hslot, hle, hd]
    rcases gfns with _ | ⟨g, gs⟩ <;> simp
  · intro old mem c b n f
    constructor
    · intro hf
      simp only [regionWithBitmap, regionNewSlot] at *
      split_ifs at * <;> simp_all
    · intro hf
      simp only [regionWithBitmap, regionNewSlot] at *
      split_ifs at * <;> simp_all

/-- A logged slot (id 0, frames [100, 110), LOG_DIRTY set) after frames
103 and 101 were marked dirty, installed in a table. -/
def tableDirty : Memslots :=
  ⟨fun i => if i = 0 then
      { (⟨0, 100, 10, 0, 1, some ∅⟩ : MemSlot) with
        dirty_bitmap := some (([103, 101].map (fun g => g - 100)).toFinset) }
    else emptySlotAt i, 3⟩

/-- Witness for C6: marking frames 103 and 101 of the clean logged slot
sets exactly the relative bits 3 and 1, and get_dirty_log on the
resulting table returns success, that exact bitmap, and is_dirty. -/
theorem dirty_tracking_exact_bits_witness :
    List.foldl markPageDirtyInSlot
        (some (⟨0, 100, 10, 0, 1, some ∅⟩ : MemSlot)) [103, 101] =
      some { (⟨0, 100, 10, 0, 1, some ∅⟩ : MemSlot) with
        dirty_bitmap := some (([103, 101].map (fun g => g - 100)).toFinset) } ∧
    kvmGetDirtyLog tableDirty 0 true =
      (0, some (([103, 101].map (fun g => g - 100)).toFinset), true) := by
  have h := dirty_tracking_exact_bits ⟨0, 100, 10, 0, 1, some ∅⟩ [103, 101]
    tableDirty 0 rfl (by decide) (by decide) (by decide) rfl
  exact ⟨h.2.2.1, h.2.2.2.2.1⟩

/-- Helper: the multi-slot validation loop of cache init never touches
the stamped generation. -/
lemma cacheInitLoop_generation (k : Memslots) (endGfn : Nat) :
    ∀ (fuel startGfn : Nat) (ghc : GhcState),
      (cacheInitLoop k endGfn fuel startGfn ghc).2.generation = ghc.generation := by
  intro fuel
  induction fuel with
  | zero => intro startGfn ghc; rfl
  | succ n ih =>
    intro startGfn ghc
    simp only [cacheInitLoop]
    rcases he : gfnToHvaMany (gfnToMemslot k startGfn) startGfn true with ⟨hva, avail⟩
    simp only [he]
    split_ifs with h1 h2
    · rfl
    · exact ih (startGfn + avail) _
    · rfl

/-- Helper: kvm_gfn_to_hva_cache_init always stamps the cache with the
active table's generation, on every path. -/
lemma cacheInit_generation (k : Memslots) (gpa len : Nat) :
    (kvmGfnToHvaCacheInit k gpa len).2.generation = k.generation := by
  simp only [kvmGfnToHvaCacheInit]
  split_ifs with h1 h2
  · rfl
  · exact cacheInitLoop_generation k _ _ _ _
  · exact cacheInitLoop_generation k _ _ _ _

/-- Helper: the success paths of the install phase bump the active
generation by one per publish: once for CREATE/FLAGS_ONLY, twice for
the DELETE/MOVE pair of publishes. -/
lemma setRegionInstall_success_gen (o : Oracles) (k : Memslots)
    (mem : UserRegion) (c : ChangeKind) (n : MemSlot)
    (h : (setRegionInstall o k mem c n).1 = 0) :
    (setRegionInstall o k mem c n).2.generation = k.generation + 1 ∨
      (setRegionInstall o k mem c n).2.generation = k.generation + 2 := by
  revert h
  unfold setRegionInstall
  split
  next =>
    split
    next => intro h; exact absurd h (by simp [ENOMEM])
    next =>
      split
      next hpr => intro h; simp at h; exact absurd h hpr
      next =>
        split
        next hio => intro h; simp at h; exact absurd h hio.2
        next =>
          intro _
          exact Or.inr (by
            simp [installNewMemslots, updateMemslots, invalidTransition])
  next =>
    split
    next hpr => intro h; simp at h; exact absurd h hpr
    next =>
      split
      next => intro h; exact absurd h (by simp [ENOMEM])
      next =>
        split
        next hio => intro h; simp at h; exact absurd h hio.2
        next =>
          intro _
          exact Or.inl (by simp [installNewMemslots, updateMemslots])

/-- C9: every publish stamps the new table with the previously active
table's generation plus one (install_new_memslots / update_memslots),
so a successful set-region call strictly increases the active
generation — by one for CREATE/FLAGS_ONLY, by two for the two publishes
of DELETE/MOVE, and not at all only for the publish-free no-op; and
kvm_write_guest_cached revalidates a cached handle whose recorded
generation differs from the active table's before using it, so the
handle it consults always carries the active generation. -/
theorem generation_monotone_and_cache_revalidation (k : Memslots)
    (ghc : GhcState) (copyOk : Bool) :
    (∀ (active : Memslots) (slots : Nat → MemSlot) (new : Option MemSlot),
      (installNewMemslots active slots new).generation = active.generation + 1) ∧
    (∀ (o : Oracles) (k' : Memslots) (mem : UserRegion),
      (kvmSetMemoryRegion o k' mem).1 = 0 →
      (kvmSetMemoryRegion o k' mem).2.generation = k'.generation ∨
        (kvmSetMemoryRegion o k' mem).2.generation = k'.generation + 1 ∨
        (kvmSetMemoryRegion o k' mem).2.generation = k'.generation + 2) ∧
    (kvmWriteGuestCached k ghc copyOk).2.generation = k.generation ∧
    (k.generation ≠ ghc.generation →
      (kvmWriteGuestCached k ghc copyOk).2 =
        (kvmGfnToHvaCacheInit k ghc.gpa ghc.len).2) ∧
    (k.generation = ghc.generation → (kvmWriteGuestCached k ghc copyOk).2 = ghc) := by
  have hsnd : ∀ (b : Bool), (kvmWriteGuestCached k ghc b).2 =
      (if k.generation ≠ ghc.generation then
        (kvmGfnToHvaCacheInit k ghc.gpa ghc.len).2 else ghc) := by
    intro b
    simp only [kvmWriteGuestCached]
    split_ifs <;> rfl
  refine ⟨?_, ?_, ?_, ?_, ?_⟩
  · intro active slots new
    simp [installNewMemslots, updateMemslots]
  · intro o k' mem
    intro h
    revert h
    simp only [kvmSetMemoryRegion]
    split
    next => intro h; exact absurd h (by simp [EINVAL])
    next =>
      split
      next => intro h; exact absurd h (by simp [EINVAL])
      next => intro _; exact Or.inl rfl
      next c hcls =>
        split
        next => intro h; exact absurd h (by simp [EEXIST])
        next =>
          split
          next => intro h; exact absurd h (by simp [ENOMEM])
          next =>
            split
            next => intro h; exact absurd h (by simp [ENOMEM])
            next =>
              intro h
              rcases setRegionInstall_success_gen o k' mem c _ h with h1 | h1
              · exact Or.inr (Or.inl h1)
              · exact Or.inr (Or.inr h1)
  · rw [hsnd copyOk]
    split_ifs with h
    · exact cacheInit_generation k ghc.gpa ghc.len
    · simp at h
      exact h.symm
  · intro h
    rw [hsnd copyOk, if_pos h]
  · intro h
    rw [hsnd copyOk, if_neg (by simp [h])]

/-- Witness for C9: a handle stamped with generation 4 used against the
one-slot table at generation 5 is re-initialised before use and comes
back carrying generation 5. -/
theorem generation_cache_revalidation_witness :
    (kvmWriteGuestCached tableOneSlot ⟨0, 4, 8, none, 0⟩ true).2 =
      (kvmGfnToHvaCacheInit tableOneSlot 0 8).2 ∧
    (kvmWriteGuestCached tableOneSlot ⟨0, 4, 8, none, 0⟩ true).2.generation =
      tableOneSlot.generation := by
  have h := generation_monotone_and_cache_revalidation tableOneSlot
    ⟨0, 4, 8, none, 0⟩ true
  exact ⟨h.2.2.2.1 (by decide), h.2.2.1⟩

/-- Helper: a binary-search hit compares equal to the key and lies in
the searched interval. -/
lemma bsearchLoop_some (f : Nat → Int) :
    ∀ (fuel lo hi m : Nat), bsearchLoop f fuel lo hi = some m →
      f m = 0 ∧ lo ≤ m ∧ m < hi := by
  intro fuel
  induction fuel with
  | zero =>
    intro lo hi m h
    exact absurd h (by simp [bsearchLoop])
  | succ n ih =>
    intro lo hi m h
    simp only [bsearchLoop] at h
    split_ifs at h with h1 h2 h3
    · rcases ih _ _ _ h with ⟨hf, hm1, hm2⟩
      exact ⟨hf, hm1, by omega⟩
    · rcases ih _ _ _ h with ⟨hf, hm1, hm2⟩
      exact ⟨hf, by omega, hm2⟩
    · cases h
      exact ⟨by omega, by omega, by omega⟩

/-- Helper: the rewind loop never moves forward. -/
lemma ioWalkBack_le (cmpKey : Nat → Int) : ∀ off, ioWalkBack cmpKey off ≤ off := by
  intro off
  induction off with
  | zero => simp [ioWalkBack]
  | succ n ih =>
    simp only [ioWalkBack]
    split_ifs
    · omega
    · omega

/-- Helper: rewinding from an equal-comparing position lands on an
equal-comparing position. -/
lemma ioWalkBack_cmp (cmpKey : Nat → Int) :
    ∀ off, cmpKey off = 0 → cmpKey (ioWalkBack cmpKey off) = 0 := by
  intro off
  induction off with
  | zero => intro h; exact h
  | succ n ih =>
    intro h
    simp only [ioWalkBack]
    split_ifs with h1
    · exact ih h1
    · exact h

/-- Helper: the rewind loop stops at position 0 or just after a
non-equal-comparing entry. -/
lemma ioWalkBack_boundary (cmpKey : Nat → Int) :
    ∀ off, ioWalkBack cmpKey off = 0 ∨
      cmpKey (ioWalkBack cmpKey off - 1) ≠ 0 := by
  intro off
  induction off with
  | zero => exact Or.inl rfl
  | succ n ih =>
    simp only [ioWalkBack]
    split_ifs with h1
    · exact ih
    · exact Or.inr (by simpa using h1)

/-- Helper: inversion of kvm_io_bus_get_first_dev on a hit: the
returned index is in range, compares equal to the key, and is the first
position of its contiguous equal run. -/
lemma kvmIoBusGetFirstDev_some (bus : List IoRange) (addr len idx : Nat)
    (h : kvmIoBusGetFirstDev bus addr len = some idx) :
    ioBusSortCmp ⟨addr, len, 0⟩ (bus.getD idx ioRangeDefault) = 0 ∧
    idx < bus.length ∧
    (idx = 0 ∨
      ioBusSortCmp ⟨addr, len, 0⟩ (bus.getD (idx - 1) ioRangeDefault) ≠ 0) := by
  simp only [kvmIoBusGetFirstDev] at h
  rcases hb : bsearchLoop
      (fun i => ioBusSortCmp ⟨addr, len, 0⟩ (bus.getD i ioRangeDefault))
      bus.length 0 bus.length with _ | m
  · rw [hb] at h
    exact absurd h (by simp)
  · rw [hb] at h
    simp only [Option.some.injEq] at h
    rcases bsearchLoop_some _ _ _ _ _ hb with ⟨hf, _, hm2⟩
    subst h
    refine ⟨?_, lt_of_le_of_lt (ioWalkBack_le _ _) hm2, ?_⟩
    · exact ioWalkBack_cmp
        (fun i => ioBusSortCmp ⟨addr, len, 0⟩ (bus.getD i ioRangeDefault)) m hf
    · exact ioWalkBack_boundary
        (fun i => ioBusSortCmp ⟨addr, len, 0⟩ (bus.getD i ioRangeDefault)) m

/-- Helper: the dispatch scan returns either 0 (handled) or the
unhandled error. -/
lemma ioScanFrom_zero_or (handled : Nat → Bool) (bus : List IoRange)
    (key : IoRange) :
    ∀ fuel idx, ioScanFrom handled bus key fuel idx = 0 ∨
      ioScanFrom handled bus key fuel idx = -EOPNOTSUPP := by
  intro fuel
  induction fuel with
  | zero => intro idx; exact Or.inr rfl
  | succ n ih =>
    intro idx
    simp only [ioScanFrom]
    split_ifs
    · exact Or.inl rfl
    · exact ih (idx + 1)
    · exact Or.inr rfl

/-- Helper: with enough fuel (the wrapper passes the exact remaining
table length), the dispatch scan succeeds exactly when some entry of
the contiguous equal run starting at idx has a handling device. -/
lemma ioScanFrom_eq_zero_iff (handled : Nat → Bool) (bus : List IoRange)
    (key : IoRange) :
    ∀ (fuel idx : Nat), bus.length ≤ fuel + idx →
      (ioScanFrom handled bus key fuel idx = 0 ↔
        ∃ j, idx ≤ j ∧ j < bus.length ∧
          (∀ m, idx ≤ m → m ≤ j →
            ioBusSortCmp key (bus.getD m ioRangeDefault) = 0) ∧
          handled (bus.getD j ioRangeDefault).dev = true) := by
  intro fuel
  induction fuel with
  | zero =>
    intro idx hle
    simp only [ioScanFrom]
    constructor
    · intro h
      exact absurd h (by decide)
    · rintro ⟨j, hj1, hj2, _, _⟩
      omega
  | succ n ih =>
    intro idx hle
    simp only [ioScanFrom]
    split_ifs with h1 h2
    · constructor
      · intro _
        refine ⟨idx, le_rfl, h1.1, ?_, h2⟩
        intro m hm1 hm2
        have hm : m = idx := by omega
        subst hm
        exact h1.2
      · intro _
        rfl
    · rw [ih (idx + 1) (by omega)]
      constructor
      · rintro ⟨j, hj1, hj2, hall, hh⟩
        refine ⟨j, by omega, hj2, ?_, hh⟩
        intro m hm1 hm2
        rcases Nat.eq_or_lt_of_le hm1 with hm | hm
        · subst hm
          exact h1.2
        · exact hall m (by omega) hm2
      · rintro ⟨j, hj1, hj2, hall, hh⟩
        have hjne : j ≠ idx := by
          intro hj
          subst hj
          rw [hh] at h2
          exact h2 rfl
        refine ⟨j, by omega, hj2, ?_, hh⟩
        intro m hm1 hm2
        exact hall m (by omega) hm2
    · constructor
      · intro h
        exact absurd h (by decide)
      · rintro ⟨j, hj1, hj2, hall, hh⟩
        push_neg at h1
        exact absurd (hall idx le_rfl hj1) (h1 (by omega))

/-- C5 (amended): dispatch binary-searches the comparator-sorted range
table for some entry comparing equal to the access (key contained in
the registered range); on a hit it rewinds to the FIRST entry of the
contiguous equal-comparing run containing the hit — not necessarily the
first equal entry of the whole table — and offers the access to that
run's entries in ascending order until one device reports it handled;
a binary-search miss (possible even when an equal entry exists
elsewhere, since nested ranges make equal entries non-contiguous), an
access no entry compares equal to, or a run whose devices all decline
yields the unhandled error -EOPNOTSUPP, the only two outcomes being
handled (0) and unhandled. -/
theorem io_dispatch_run_characterization (handled : Nat → Bool)
    (bus : List IoRange) (addr len : Nat) :
    ((∀ i, i < bus.length →
        ioBusSortCmp ⟨addr, len, 0⟩ (bus.getD i ioRangeDefault) ≠ 0) →
      kvmIoBusWrite handled bus addr len = -EOPNOTSUPP) ∧
    (∀ idx, kvmIoBusGetFirstDev bus addr len = some idx →
      ioBusSortCmp ⟨addr, len, 0⟩ (bus.getD idx ioRangeDefault) = 0 ∧
      idx < bus.length ∧
      (idx = 0 ∨
        ioBusSortCmp ⟨addr, len, 0⟩ (bus.getD (idx - 1) ioRangeDefault) ≠ 0) ∧
      (kvmIoBusWrite handled bus addr len = 0 ↔
        ∃ j, idx ≤ j ∧ j < bus.length ∧
          (∀ m, idx ≤ m → m ≤ j →
            ioBusSortCmp ⟨addr, len, 0⟩ (bus.getD m ioRangeDefault) = 0) ∧
          handled (bus.getD j ioRangeDefault).dev = true)) ∧
    (kvmIoBusWrite handled bus addr len = 0 ∨
      kvmIoBusWrite handled bus addr len = -EOPNOTSUPP) := by
  refine ⟨?_, ?_, ?_⟩
  · intro hno
    rcases hfd : kvmIoBusGetFirstDev bus addr len with _ | idx
    · simp [kvmIoBusWrite, hfd]
    · rcases kvmIoBusGetFirstDev_some bus addr len idx hfd with ⟨hc, hlt, _⟩
      exact absurd hc (hno idx hlt)
  · intro idx hfd
    rcases kvmIoBusGetFirstDev_some bus addr len idx hfd with ⟨hc, hlt, hbd⟩
    refine ⟨hc, hlt, hbd, ?_⟩
    have : kvmIoBusWrite handled bus addr len =
        ioScanFrom handled bus ⟨addr, len, 0⟩ (bus.length - idx) idx := by
      simp [kvmIoBusWrite, hfd]
    rw [this]
    exact ioScanFrom_eq_zero_iff handled bus ⟨addr, len, 0⟩
      (bus.length - idx) idx (by omega)
  · rcases hfd : kvmIoBusGetFirstDev bus addr len with _ | idx
    · exact Or.inr (by simp [kvmIoBusWrite, hfd])
    · have : kvmIoBusWrite handled bus addr len =
          ioScanFrom handled bus ⟨addr, len, 0⟩ (bus.length - idx) idx := by
        simp [kvmIoBusWrite, hfd]
      rw [this]
      exact ioScanFrom_zero_or handled bus ⟨addr, len, 0⟩ (bus.length - idx) idx

/-- C5 (counterexample): on the comparator-sorted bus
[(0, len 5), (10, len 10), (0, len 100)] — nested ranges, a layout the
comparator's weak order admits — the access (5, len 1) compares equal
to the registered range (0, len 100) whose device handles everything,
yet dispatch returns the unhandled error: the binary search probes
(10, len 10), goes left, probes (0, len 5), goes right, and misses, so
the matching range is never offered the access. -/
theorem io_dispatch_misses_matching_range :
    List.Pairwise (fun a b => ioBusSortCmp a b ≤ 0)
      [⟨0, 5, 0⟩, ⟨10, 10, 1⟩, ⟨0, 100, 2⟩] ∧
    ioBusSortCmp ⟨5, 1, 0⟩ (⟨0, 100, 2⟩ : IoRange) = 0 ∧
    kvmIoBusWrite (fun _ => true) [⟨0, 5, 0⟩, ⟨10, 10, 1⟩, ⟨0, 100, 2⟩] 5 1 =
      -EOPNOTSUPP := by
  decide

/-- Witness for C5's amended theorem: on the layered bus of the spec's
own example ([0x1000, 0x1010) then [0x1008, 0x1018)), an access at
0x100C is offered to both ranges in ascending order, and is consumed
exactly when the second device handles it. -/
theorem io_dispatch_run_characterization_witness :
    kvmIoBusWrite (fun d => decide (d = 8))
      [⟨4096, 16, 7⟩, ⟨4104, 16, 8⟩] 4108 1 = 0 :=
  ((io_dispatch_run_characterization (fun d => decide (d = 8))
      [⟨4096, 16, 7⟩, ⟨4104, 16, 8⟩] 4108 1).2.1 0 (by decide)).2.2.2.mpr
    ⟨1, by decide, by decide, fun m h1 h2 => by
      interval_cases m
      · decide
      · decide, by decide⟩

end KvmCore
